import Mathlib

/-!
Shallow embedding of the date-parsing core of the repository
(`src/utils/parse_date_str.rs`) together with the calendar utility and
error/rounding types it uses.  Machine integers are modelled as `Nat`/`Int`
with explicit range checks where Rust's `u32`/`i32` parsing enforces them,
and Rust `Option`/`Result` become `Option`/`Except`.  A Rust panic
(`.unwrap()` on an `Err`) is modelled by a dedicated `ParseResult.panic`
outcome, since it escapes the `Result` type in the source.
-/

set_option autoImplicit false

namespace OnboardingBot

/-- The rounding policy enum (`DateRound` in `src/utils`): `Ceil` resolves
missing components to the latest valid value, `Floor` to the earliest. -/
inductive DateRound where
  | Ceil
  | Floor
  deriving DecidableEq

/-- The parse-error enum (`ParseDateStrError`): `DatePart` carries the raw
text of a component that failed integer parsing (the spec's
`InvalidComponent`), `Date` carries a reconstructed string for a
calendrically invalid or structurally unsupported input (the spec's
`InvalidDate`). -/
inductive ParseDateStrError where
  | DatePart (raw : String)
  | Date (raw : String)
  deriving DecidableEq

/-- A calendar date, modelling `chrono::NaiveDate` semantically as its
(year, month, day) triple. -/
structure NaiveDate where
  year : Int
  month : Nat
  day : Nat
  deriving DecidableEq

/-- A time of day, modelling `chrono::NaiveTime` as (hour, minute, second). -/
structure NaiveTime where
  hour : Nat
  minute : Nat
  second : Nat
  deriving DecidableEq

/-- A date combined with a time of day, modelling `chrono::NaiveDateTime`. -/
structure NaiveDateTime where
  date : NaiveDate
  time : NaiveTime
  deriving DecidableEq

/-- Outcome of a call into the parser: a timestamp, a typed error, or a
panic (Rust `.unwrap()` on an `Err` aborts instead of returning). -/
inductive ParseResult where
  | ok (t : NaiveDateTime)
  | err (e : ParseDateStrError)
  | panic
  deriving DecidableEq

/-- Gregorian leap-year rule as used by chrono's proleptic calendar. -/
def isLeapYear (y : Int) : Bool :=
  y % 4 == 0 && (y % 100 != 0 || y % 400 == 0)

/-- Number of days of month `m` (1-based) of year `y`; `0` for an
out-of-range month number. -/
def daysInMonth (y : Int) (m : Nat) : Nat :=
  match m with
  | 1 => 31
  | 2 => if isLeapYear y then 29 else 28
  | 3 => 31
  | 4 => 30
  | 5 => 31
  | 6 => 30
  | 7 => 31
  | 8 => 31
  | 9 => 30
  | 10 => 31
  | 11 => 30
  | 12 => 31
  | _ => 0

/-- Semantic model of `chrono::NaiveDate::from_ymd_opt`: the triple must be
a real proleptic-Gregorian date and the year must lie in chrono's
representable range `-262144 ..= 262143`. -/
def from_ymd_opt (year : Int) (month day : Nat) : Option NaiveDate :=
  if -262144 ≤ year ∧ year ≤ 262143 ∧ 1 ≤ month ∧ month ≤ 12
      ∧ 1 ≤ day ∧ day ≤ daysInMonth year month then
    some ⟨year, month, day⟩
  else
    none

/-- The day before a (year, month, day) triple in the proleptic calendar,
modelling chrono's step-back-one-day arithmetic. -/
def pred_day (d : NaiveDate) : NaiveDate :=
  if 1 < d.day then
    ⟨d.year, d.month, d.day - 1⟩
  else if 1 < d.month then
    ⟨d.year, d.month - 1, daysInMonth d.year (d.month - 1)⟩
  else
    ⟨d.year - 1, 12, 31⟩

/-- Modelled from the spec: the calendar utility
`last_day_of_month(year, month)` (its source file
`src/utils/last_day_of_month.rs` is not in the repository snapshot; only
its callers in `parse_date_str.rs` are).  Per the spec it computes the
first day of the next month (month+1, rolling year+1 when month is
December) and steps back one day, and it fails with an `InvalidDate`-class
error when that first-of-next-month date cannot be constructed.  The text
carried by the error is not specified and is not relied upon below. -/
def last_day_of_month (year : Int) (month : Nat) :
    Except ParseDateStrError NaiveDate :=
  let next : Int × Nat := if month == 12 then (year + 1, 1) else (year, month + 1)
  match from_ymd_opt next.1 next.2 1 with
  | some d => Except.ok (pred_day d)
  | none => Except.error (ParseDateStrError.Date (toString year ++ "/" ++ toString month))

/-- Value of all ten decimal digits read left to right (used to model
Rust's integer `FromStr`). -/
def digitsVal (l : List Char) : Nat :=
  l.foldl (fun a c => a * 10 + (c.toNat - 48)) 0

/-- A non-empty all-ASCII-digit character run parses to its value;
anything else fails.  This is the digit phase shared by Rust's
`u32::from_str` and `i32::from_str`. -/
def parseDigits (l : List Char) : Option Nat :=
  if l = [] then none
  else if l.all Char.isDigit then some (digitsVal l)
  else none

/-- Model of Rust `u32::from_str`: optional leading `+`, then a non-empty
digit run whose value fits in 32 bits. -/
def parseU32 (s : String) : Option Nat :=
  match s.data with
  | [] => none
  | c :: rest =>
    let l := if c = '+' then rest else c :: rest
    match parseDigits l with
    | some n => if n < 4294967296 then some n else none
    | none => none

/-- Model of Rust `i32::from_str`: optional leading `+` or `-`, then a
non-empty digit run, with the signed value fitting in 32 bits. -/
def parseI32 (s : String) : Option Int :=
  match s.data with
  | [] => none
  | c :: rest =>
    if c = '-' then
      match parseDigits rest with
      | some n => if n ≤ 2147483648 then some (-(n : Int)) else none
      | none => none
    else if c = '+' then
      match parseDigits rest with
      | some n => if n ≤ 2147483647 then some ((n : Int)) else none
      | none => none
    else
      match parseDigits (c :: rest) with
      | some n => if n ≤ 2147483647 then some ((n : Int)) else none
      | none => none

/-- Model of Rust `str::split('/')` on the character list: every string
splits into one more token than it has slashes, so the result is never
empty (`"".split('/')` yields one empty token). -/
def splitSlashAux : List Char → List (List Char)
  | [] => [[]]
  | c :: cs =>
    if c = '/' then
      [] :: splitSlashAux cs
    else
      match splitSlashAux cs with
      | t :: ts => (c :: t) :: ts
      | [] => [[c]]

/-- `date_str.split('/').collect::<Vec<&str>>()` from `parse_date_str`. -/
def splitSlash (s : String) : List String :=
  (splitSlashAux s.data).map String.mk

/-- `time_by_date_round` from `src/utils/parse_date_str.rs`. -/
def time_by_date_round (round : DateRound) : NaiveTime :=
  match round with
  | DateRound.Ceil => ⟨23, 59, 59⟩
  | DateRound.Floor => ⟨0, 0, 0⟩

/-- `handle_full_date` from `src/utils/parse_date_str.rs`: day and month
parse as `u32`, year as `i32`; match arms are checked in source order
(all-`Ok` first, then day error, month error, year error). -/
def handle_full_date (day_str month_str year_str : String) (round : DateRound) :
    ParseResult :=
  let time := time_by_date_round round
  match parseU32 day_str, parseU32 month_str, parseI32 year_str with
  | some day, some month, some year =>
    match from_ymd_opt year month day with
    | some d => ParseResult.ok ⟨d, time⟩
    | none => ParseResult.err (ParseDateStrError.Date
        (day_str ++ "/" ++ month_str ++ "/" ++ year_str))
  | none, _, _ => ParseResult.err (ParseDateStrError.DatePart day_str)
  | _, none, _ => ParseResult.err (ParseDateStrError.DatePart month_str)
  | _, _, none => ParseResult.err (ParseDateStrError.DatePart year_str)

/-- `handle_month_year` from `src/utils/parse_date_str.rs`.  Note the
source matches on the tuple `(year, month)` — in that order — so the arm
`(Err(_), _)`, which fires when the *year* token fails to parse, reports
`month_str`, and the arm `(_, Err(_))`, firing when the *month* token
fails, reports `year_str`.  The embedding preserves this. -/
def handle_month_year (month_str year_str : String) (round : DateRound) :
    ParseResult :=
  let time := time_by_date_round round
  let month := parseU32 month_str
  let year := parseI32 year_str
  match year, month with
  | some year, some month =>
    let dayE : Except ParseDateStrError Nat :=
      match round with
      | DateRound.Ceil => (last_day_of_month year month).map NaiveDate.day
      | DateRound.Floor => Except.ok 1
    match dayE with
    | Except.error e => ParseResult.err e
    | Except.ok day =>
      match from_ymd_opt year month day with
      | some d => ParseResult.ok ⟨d, time⟩
      | none => ParseResult.err (ParseDateStrError.Date
          (toString month ++ "/" ++ toString year))
  | none, _ => ParseResult.err (ParseDateStrError.DatePart month_str)
  | _, none => ParseResult.err (ParseDateStrError.DatePart year_str)

/-- `handle_year` from `src/utils/parse_date_str.rs`: under `Ceil` the day
is `last_day_of_month(year, month).unwrap().day()`, so a calendar-utility
error aborts the program (`ParseResult.panic`) instead of being returned. -/
def handle_year (year_str : String) (round : DateRound) : ParseResult :=
  let time := time_by_date_round round
  match parseI32 year_str with
  | some year =>
    let month : Nat :=
      match round with
      | DateRound.Ceil => 12
      | DateRound.Floor => 1
    let dayU : Option Nat :=
      match round with
      | DateRound.Ceil =>
        match last_day_of_month year month with
        | Except.ok ld => some ld.day
        | Except.error _ => none
      | DateRound.Floor => some 1
    match dayU with
    | none => ParseResult.panic
    | some day =>
      match from_ymd_opt year month day with
      | some d => ParseResult.ok ⟨d, time⟩
      | none => ParseResult.err (ParseDateStrError.Date
          (toString day ++ "/" ++ toString month ++ "/" ++ year_str))
  | none => ParseResult.err (ParseDateStrError.DatePart year_str)

/-- `parse_date_str` from `src/utils/parse_date_str.rs`: tokenize on `/`
and dispatch on token count (3, 2, 1, otherwise `InvalidDate` with the
original string). -/
def parse_date_str (date_str : String) (round : DateRound) : ParseResult :=
  match splitSlash date_str with
  | [d, m, y] => handle_full_date d m y round
  | [m, y] => handle_month_year m y round
  | [y] => handle_year y round
  | _ => ParseResult.err (ParseDateStrError.Date date_str)

/-- The ASCII character of a single decimal digit. -/
def digitCh (d : Nat) : Char := Char.ofNat (48 + d)

/-- Decimal digit characters of `n`, most significant first. -/
def natChars (n : Nat) : List Char :=
  if n = 0 then ['0'] else ((Nat.digits 10 n).map digitCh).reverse

/-- Decimal rendering of a `Nat`, as Rust's `Display` for `u32` prints it. -/
def natToString (n : Nat) : String := ⟨natChars n⟩

/-- Decimal rendering of an `Int`, as Rust's `Display` for `i32` prints it:
a leading `-` for negative values, plain digits otherwise. -/
def intToString (i : Int) : String :=
  if i < 0 then ⟨'-' :: natChars i.natAbs⟩ else ⟨natChars i.natAbs⟩

/-- Formatting a date back into the `"D/M/Y"` shape accepted by the
three-token branch of the parser (the spec's round-trip property). -/
def formatDMY (d : NaiveDate) : String :=
  natToString d.day ++ "/" ++ natToString d.month ++ "/" ++ intToString d.year

/-! ### Lemmas about tokenization -/

theorem splitSlashAux_ne_nil (l : List Char) : splitSlashAux l ≠ [] := by
  match l with
  | [] => simp [splitSlashAux]
  | c :: cs =>
    unfold splitSlashAux
    split
    · simp
    · match h : splitSlashAux cs with
      | _ :: _ => simp
      | [] => simp

theorem splitSlashAux_no_slash (l : List Char) (h : '/' ∉ l) :
    splitSlashAux l = [l] := by
  induction l with
  | nil => rfl
  | cons c cs ih =>
    have hc : c ≠ '/' := by
      intro hc; exact h (hc ▸ List.mem_cons_self c cs)
    have hcs : '/' ∉ cs := fun hm => h (List.mem_cons_of_mem c hm)
    unfold splitSlashAux
    rw [if_neg hc, ih hcs]

theorem splitSlashAux_append (a r : List Char) (h : '/' ∉ a) :
    splitSlashAux (a ++ '/' :: r) = a :: splitSlashAux r := by
  induction a with
  | nil => simp [splitSlashAux]
  | cons c cs ih =>
    have hc : c ≠ '/' := by
      intro hc; exact h (hc ▸ List.mem_cons_self c cs)
    have hcs : '/' ∉ cs := fun hm => h (List.mem_cons_of_mem c hm)
    rw [List.cons_append]
    simp only [splitSlashAux]
    rw [if_neg hc, ih hcs]

theorem splitSlash_single (s : String) (h : '/' ∉ s.data) :
    splitSlash s = [s] := by
  simp [splitSlash, splitSlashAux_no_slash s.data h]

theorem splitSlash_pair (a b : String) (ha : '/' ∉ a.data) (hb : '/' ∉ b.data) :
    splitSlash (a ++ "/" ++ b) = [a, b] := by
  have hdata : (a ++ "/" ++ b).data = a.data ++ '/' :: b.data := by
    simp [String.data_append]
  simp [splitSlash, hdata, splitSlashAux_append a.data b.data ha,
    splitSlashAux_no_slash b.data hb]

theorem splitSlash_triple (a b c : String)
    (ha : '/' ∉ a.data) (hb : '/' ∉ b.data) (hc : '/' ∉ c.data) :
    splitSlash (a ++ "/" ++ b ++ "/" ++ c) = [a, b, c] := by
  have hdata : (a ++ "/" ++ b ++ "/" ++ c).data
      = a.data ++ '/' :: (b.data ++ '/' :: c.data) := by
    simp [String.data_append]
  simp [splitSlash, hdata, splitSlashAux_append a.data _ ha,
    splitSlashAux_append b.data c.data hb, splitSlashAux_no_slash c.data hc]

/-! ### Lemmas about the integer-token parsers -/

theorem parseDigits_all_digits {l : List Char} {n : Nat}
    (h : parseDigits l = some n) : l.all Char.isDigit = true := by
  unfold parseDigits at h
  split at h
  · exact absurd h (by simp)
  · split at h
    · assumption
    · exact absurd h (by simp)

theorem no_slash_of_all_digits {l : List Char}
    (h : l.all Char.isDigit = true) : '/' ∉ l := by
  intro hm
  have := (List.all_eq_true.mp h) '/' hm
  simp [Char.isDigit] at this

theorem parseU32_no_slash {s : String} {n : Nat}
    (h : parseU32 s = some n) : '/' ∉ s.data := by
  unfold parseU32 at h
  match hd : s.data with
  | [] => simp
  | c :: rest =>
    rw [hd] at h
    simp only at h
    by_cases hc : c = '+'
    · rw [if_pos hc] at h
      match hp : parseDigits rest with
      | none => rw [hp] at h; exact absurd h (by simp)
      | some m =>
        rw [hp] at h
        intro hm
        rcases List.mem_cons.mp hm with h1 | h1
        · rw [hc] at h1; exact absurd h1.symm (by decide)
        · exact no_slash_of_all_digits (parseDigits_all_digits hp) h1
    · rw [if_neg hc] at h
      match hp : parseDigits (c :: rest) with
      | none => rw [hp] at h; exact absurd h (by simp)
      | some m =>
        exact no_slash_of_all_digits (parseDigits_all_digits hp)

theorem parseI32_no_slash {s : String} {y : Int}
    (h : parseI32 s = some y) : '/' ∉ s.data := by
  unfold parseI32 at h
  match hd : s.data with
  | [] => simp
  | c :: rest =>
    rw [hd] at h
    simp only at h
    by_cases hneg : c = '-'
    · rw [if_pos hneg] at h
      match hp : parseDigits rest with
      | none => rw [hp] at h; exact absurd h (by simp)
      | some m =>
        rw [hp] at h
        intro hm
        rcases List.mem_cons.mp hm with h1 | h1
        · rw [hneg] at h1; exact absurd h1.symm (by decide)
        · exact no_slash_of_all_digits (parseDigits_all_digits hp) h1
    · rw [if_neg hneg] at h
      by_cases hpos : c = '+'
      · rw [if_pos hpos] at h
        match hp : parseDigits rest with
        | none => rw [hp] at h; exact absurd h (by simp)
        | some m =>
          rw [hp] at h
          intro hm
          rcases List.mem_cons.mp hm with h1 | h1
          · rw [hpos] at h1; exact absurd h1.symm (by decide)
          · exact no_slash_of_all_digits (parseDigits_all_digits hp) h1
      · rw [if_neg hpos] at h
        match hp : parseDigits (c :: rest) with
        | none => rw [hp] at h; exact absurd h (by simp)
        | some m =>
          exact no_slash_of_all_digits (parseDigits_all_digits hp)

/-! ### Lemmas about the calendar model -/

theorem daysInMonth_pos {y : Int} {m : Nat} (h1 : 1 ≤ m) (h2 : m ≤ 12) :
    1 ≤ daysInMonth y m := by
  interval_cases m <;> (simp only [daysInMonth]; first | omega | (split <;> omega))

theorem daysInMonth_le {y : Int} {m : Nat} (h1 : 1 ≤ m) (h2 : m ≤ 12) :
    daysInMonth y m ≤ 31 := by
  interval_cases m <;> (simp only [daysInMonth]; first | omega | (split <;> omega))

theorem from_ymd_opt_valid {y : Int} {m d : Nat}
    (h1 : -262144 ≤ y) (h2 : y ≤ 262143) (h3 : 1 ≤ m) (h4 : m ≤ 12)
    (h5 : 1 ≤ d) (h6 : d ≤ daysInMonth y m) :
    from_ymd_opt y m d = some ⟨y, m, d⟩ := by
  unfold from_ymd_opt
  rw [if_pos ⟨h1, h2, h3, h4, h5, h6⟩]

theorem from_ymd_opt_eq_some {y : Int} {m d : Nat} {dt : NaiveDate}
    (h : from_ymd_opt y m d = some dt) :
    dt = ⟨y, m, d⟩ ∧ -262144 ≤ y ∧ y ≤ 262143 ∧ 1 ≤ m ∧ m ≤ 12
      ∧ 1 ≤ d ∧ d ≤ daysInMonth y m := by
  unfold from_ymd_opt at h
  split at h
  · cases h
    exact ⟨rfl, by assumption⟩
  · exact absurd h (by simp)

theorem from_ymd_opt_self {y : Int} {m d : Nat} {dt : NaiveDate}
    (h : from_ymd_opt y m d = some dt) :
    from_ymd_opt dt.year dt.month dt.day = some dt := by
  obtain ⟨rfl, hb⟩ := from_ymd_opt_eq_some h
  unfold from_ymd_opt
  rw [if_pos hb]

theorem last_day_of_month_eq {y : Int} {m : Nat}
    (h1 : 1 ≤ m) (h2 : m ≤ 12) (h3 : -262144 ≤ y) (h4 : y ≤ 262143)
    (h5 : ¬(m = 12 ∧ y = 262143)) :
    last_day_of_month y m = Except.ok ⟨y, m, daysInMonth y m⟩ := by
  unfold last_day_of_month
  by_cases hm : m = 12
  · subst hm
    have hy : y ≤ 262142 := by
      rcases lt_or_eq_of_le h4 with h | h
      · omega
      · exact absurd ⟨rfl, h⟩ h5
    have hv : from_ymd_opt (y + 1) 1 1 = some ⟨y + 1, 1, 1⟩ :=
      from_ymd_opt_valid (by omega) (by omega) (by omega) (by omega)
        (by omega) (by simp [daysInMonth])
    simp only [beq_self_eq_true, if_true, hv]
    simp [pred_day, daysInMonth]
  · have hlt : m < 12 := lt_of_le_of_ne h2 hm
    have hbeq : (m == 12) = false := by simp [hm]
    have hv : from_ymd_opt y (m + 1) 1 = some ⟨y, m + 1, 1⟩ :=
      from_ymd_opt_valid h3 h4 (by omega) (by omega) (by omega)
        (daysInMonth_pos (by omega) (by omega))
    simp only [hbeq, Bool.false_eq_true, if_false, hv]
    have hpred : pred_day ⟨y, m + 1, 1⟩ = ⟨y, m, daysInMonth y m⟩ := by
      unfold pred_day
      simp only
      rw [if_neg (by omega), if_pos (by omega)]
      simp
    rw [hpred]

/-! ### Behaviour of the three resolution strategies on well-formed tokens -/

theorem handle_full_date_valid {ds ms ys : String} {d m : Nat} {y : Int}
    {dt : NaiveDate} (round : DateRound)
    (hd : parseU32 ds = some d) (hm : parseU32 ms = some m)
    (hy : parseI32 ys = some y) (hv : from_ymd_opt y m d = some dt) :
    handle_full_date ds ms ys round
      = ParseResult.ok ⟨dt, time_by_date_round round⟩ := by
  unfold handle_full_date
  rw [hd, hm, hy]
  simp only [hv]

theorem handle_full_date_invalid {ds ms ys : String} {d m : Nat} {y : Int}
    (round : DateRound)
    (hd : parseU32 ds = some d) (hm : parseU32 ms = some m)
    (hy : parseI32 ys = some y) (hv : from_ymd_opt y m d = none) :
    handle_full_date ds ms ys round
      = ParseResult.err (ParseDateStrError.Date (ds ++ "/" ++ ms ++ "/" ++ ys)) := by
  unfold handle_full_date
  rw [hd, hm, hy]
  simp only [hv]

theorem handle_month_year_floor {ms ys : String} {m : Nat} {y : Int}
    (hm : parseU32 ms = some m) (hy : parseI32 ys = some y)
    (h1 : 1 ≤ m) (h2 : m ≤ 12) (h3 : -262144 ≤ y) (h4 : y ≤ 262143) :
    handle_month_year ms ys DateRound.Floor
      = ParseResult.ok ⟨⟨y, m, 1⟩, ⟨0, 0, 0⟩⟩ := by
  have hv : from_ymd_opt y m 1 = some ⟨y, m, 1⟩ :=
    from_ymd_opt_valid h3 h4 h1 h2 (by omega) (daysInMonth_pos h1 h2)
  unfold handle_month_year
  rw [hm, hy]
  simp only [hv, time_by_date_round]

theorem handle_month_year_ceil {ms ys : String} {m : Nat} {y : Int}
    (hm : parseU32 ms = some m) (hy : parseI32 ys = some y)
    (h1 : 1 ≤ m) (h2 : m ≤ 12) (h3 : -262144 ≤ y) (h4 : y ≤ 262143)
    (h5 : ¬(m = 12 ∧ y = 262143)) :
    handle_month_year ms ys DateRound.Ceil
      = ParseResult.ok ⟨⟨y, m, daysInMonth y m⟩, ⟨23, 59, 59⟩⟩ := by
  have hld := last_day_of_month_eq h1 h2 h3 h4 h5
  have hv : from_ymd_opt y m (daysInMonth y m) = some ⟨y, m, daysInMonth y m⟩ :=
    from_ymd_opt_valid h3 h4 h1 h2 (daysInMonth_pos h1 h2) (le_refl _)
  unfold handle_month_year
  rw [hm, hy]
  simp only [hld, Except.map, hv, time_by_date_round]

theorem handle_year_floor {ys : String} {y : Int}
    (hy : parseI32 ys = some y) (h3 : -262144 ≤ y) (h4 : y ≤ 262143) :
    handle_year ys DateRound.Floor = ParseResult.ok ⟨⟨y, 1, 1⟩, ⟨0, 0, 0⟩⟩ := by
  have hv : from_ymd_opt y 1 1 = some ⟨y, 1, 1⟩ :=
    from_ymd_opt_valid h3 h4 (by omega) (by omega) (by omega)
      (by simp [daysInMonth])
  unfold handle_year
  rw [hy]
  simp only [hv, time_by_date_round]

theorem handle_year_ceil {ys : String} {y : Int}
    (hy : parseI32 ys = some y) (h3 : -262144 ≤ y) (h4 : y ≤ 262142) :
    handle_year ys DateRound.Ceil = ParseResult.ok ⟨⟨y, 12, 31⟩, ⟨23, 59, 59⟩⟩ := by
  have hld : last_day_of_month y 12 = Except.ok ⟨y, 12, daysInMonth y 12⟩ :=
    last_day_of_month_eq (by omega) (by omega) h3 (by omega) (by omega)
  have hv : from_ymd_opt y 12 31 = some ⟨y, 12, 31⟩ :=
    from_ymd_opt_valid h3 (by omega) (by omega) (by omega) (by omega)
      (by simp [daysInMonth])
  unfold handle_year
  rw [hy]
  simp only [hld, daysInMonth, hv, time_by_date_round]

theorem handle_year_ceil_max {ys : String}
    (hy : parseI32 ys = some 262143) :
    handle_year ys DateRound.Ceil = ParseResult.panic := by
  have hld : last_day_of_month 262143 12
      = Except.error (ParseDateStrError.Date (toString (262143 : Int) ++ "/" ++ toString (12 : Nat))) := by
    rfl
  unfold handle_year
  rw [hy]
  simp only [hld]

/-! ### Dispatch of `parse_date_str` on the token count -/

theorem parse_dispatch_one {s a : String} (round : DateRound)
    (h : splitSlash s = [a]) :
    parse_date_str s round = handle_year a round := by
  unfold parse_date_str
  rw [h]

theorem parse_dispatch_two {s a b : String} (round : DateRound)
    (h : splitSlash s = [a, b]) :
    parse_date_str s round = handle_month_year a b round := by
  unfold parse_date_str
  rw [h]

theorem parse_dispatch_three {s a b c : String} (round : DateRound)
    (h : splitSlash s = [a, b, c]) :
    parse_date_str s round = handle_full_date a b c round := by
  unfold parse_date_str
  rw [h]

/-! ### Decimal rendering parses back to the same number -/

theorem digitCh_isDigit {d : Nat} (h : d < 10) : (digitCh d).isDigit = true := by
  interval_cases d <;> decide

theorem digitCh_val {d : Nat} (h : d < 10) : (digitCh d).toNat - 48 = d := by
  interval_cases d <;> decide

theorem natChars_all_digits (n : Nat) :
    ∀ c ∈ natChars n, c.isDigit = true := by
  intro c hc
  unfold natChars at hc
  split at hc
  · rcases List.mem_singleton.mp hc with rfl
    decide
  · rw [List.mem_reverse, List.mem_map] at hc
    obtain ⟨d, hd, rfl⟩ := hc
    exact digitCh_isDigit (Nat.digits_lt_base (by norm_num) hd)

theorem natChars_ne_nil (n : Nat) : natChars n ≠ [] := by
  unfold natChars
  split
  · simp
  · simp only [ne_eq, List.reverse_eq_nil_iff, List.map_eq_nil_iff]
    exact Nat.digits_ne_nil_iff_ne_zero.mpr (by assumption)

theorem foldr_digitCh (ds : List Nat) (h : ∀ d ∈ ds, d < 10) :
    ds.foldr (fun d a => a * 10 + ((digitCh d).toNat - 48)) 0
      = Nat.ofDigits 10 ds := by
  induction ds with
  | nil => simp [Nat.ofDigits]
  | cons d ds ih =>
    have hd : d < 10 := h d (List.mem_cons_self d ds)
    have hds : ∀ x ∈ ds, x < 10 := fun x hx => h x (List.mem_cons_of_mem d hx)
    simp only [List.foldr_cons, ih hds, digitCh_val hd, Nat.ofDigits_cons]
    ring

theorem digitsVal_natChars (n : Nat) : digitsVal (natChars n) = n := by
  unfold natChars
  split
  · subst n
    decide
  · unfold digitsVal
    rw [List.foldl_reverse, List.foldr_map]
    exact (foldr_digitCh (Nat.digits 10 n)
      (fun d hd => Nat.digits_lt_base (by norm_num) hd)).trans
      (Nat.ofDigits_digits 10 n)

theorem parseDigits_natChars (n : Nat) : parseDigits (natChars n) = some n := by
  unfold parseDigits
  rw [if_neg (natChars_ne_nil n),
    if_pos (List.all_eq_true.mpr (natChars_all_digits n)),
    digitsVal_natChars]

theorem isDigit_ne_plus {c : Char} (h : c.isDigit = true) : c ≠ '+' := by
  intro hc
  subst hc
  exact absurd h (by decide)

theorem isDigit_ne_minus {c : Char} (h : c.isDigit = true) : c ≠ '-' := by
  intro hc
  subst hc
  exact absurd h (by decide)

theorem natToString_no_slash (n : Nat) : '/' ∉ (natToString n).data := by
  exact no_slash_of_all_digits (List.all_eq_true.mpr (natChars_all_digits n))

theorem intToString_no_slash (i : Int) : '/' ∉ (intToString i).data := by
  unfold intToString
  split
  · intro hm
    rcases List.mem_cons.mp hm with h1 | h1
    · exact absurd h1.symm (by decide)
    · exact no_slash_of_all_digits
        (List.all_eq_true.mpr (natChars_all_digits i.natAbs)) h1
  · exact no_slash_of_all_digits
      (List.all_eq_true.mpr (natChars_all_digits i.natAbs))

theorem parseU32_natToString {n : Nat} (h : n < 4294967296) :
    parseU32 (natToString n) = some n := by
  unfold parseU32
  rw [show (natToString n).data = natChars n from rfl]
  rcases hnc : natChars n with _ | ⟨c, rest⟩
  · exact absurd hnc (natChars_ne_nil n)
  · have hcd : c.isDigit = true :=
      natChars_all_digits n c (hnc ▸ List.mem_cons_self c rest)
    simp only
    rw [if_neg (isDigit_ne_plus hcd), ← hnc, parseDigits_natChars]
    dsimp only
    rw [if_pos h]

theorem parseI32_intToString {i : Int} (h : i.natAbs ≤ 2147483647) :
    parseI32 (intToString i) = some i := by
  unfold parseI32 intToString
  by_cases hi : i < 0
  · rw [if_pos hi]
    simp only [if_true]
    rw [parseDigits_natChars]
    dsimp only
    rw [if_pos (by omega : i.natAbs ≤ 2147483648)]
    have hval : -(i.natAbs : Int) = i := by omega
    rw [hval]
  · rw [if_neg hi]
    rcases hnc : natChars i.natAbs with _ | ⟨c, rest⟩
    · exact absurd hnc (natChars_ne_nil i.natAbs)
    · have hcd : c.isDigit = true :=
        natChars_all_digits i.natAbs c (hnc ▸ List.mem_cons_self c rest)
      simp only
      rw [if_neg (isDigit_ne_minus hcd), if_neg (isDigit_ne_plus hcd),
        ← hnc, parseDigits_natChars]
      dsimp only
      rw [if_pos h]
      have hval : (i.natAbs : Int) = i := by omega
      rw [hval]

/-! ### Inversion: every successful parse went through `from_ymd_opt` -/

theorem handle_full_date_ok {ds ms ys : String} {round : DateRound}
    {t : NaiveDateTime} (h : handle_full_date ds ms ys round = ParseResult.ok t) :
    from_ymd_opt t.date.year t.date.month t.date.day = some t.date
      ∧ t.time = time_by_date_round round := by
  unfold handle_full_date at h
  match hd : parseU32 ds, hm : parseU32 ms, hy : parseI32 ys with
  | some d, some m, some y =>
    rw [hd, hm, hy] at h
    dsimp only at h
    match hv : from_ymd_opt y m d with
    | some dt =>
      rw [hv] at h
      cases h
      exact ⟨from_ymd_opt_self hv, rfl⟩
    | none =>
      rw [hv] at h
      exact absurd h (by simp)
  | none, _, _ =>
    rw [hd] at h
    exact absurd h (by simp)
  | some _, none, _ =>
    rw [hd, hm] at h
    exact absurd h (by simp)
  | some _, some _, none =>
    rw [hd, hm, hy] at h
    exact absurd h (by simp)

theorem handle_month_year_ok {ms ys : String} {round : DateRound}
    {t : NaiveDateTime} (h : handle_month_year ms ys round = ParseResult.ok t) :
    from_ymd_opt t.date.year t.date.month t.date.day = some t.date
      ∧ t.time = time_by_date_round round := by
  unfold handle_month_year at h
  match hy : parseI32 ys, hm : parseU32 ms with
  | some y, some m =>
    rw [hy, hm] at h
    dsimp only at h
    match round with
    | DateRound.Ceil =>
      dsimp only at h
      match hld : last_day_of_month y m with
      | Except.ok ld =>
        rw [hld] at h
        dsimp only [Except.map] at h
        match hv : from_ymd_opt y m ld.day with
        | some dt =>
          rw [hv] at h
          cases h
          exact ⟨from_ymd_opt_self hv, rfl⟩
        | none =>
          rw [hv] at h
          exact absurd h (by simp)
      | Except.error e =>
        rw [hld] at h
        dsimp only [Except.map] at h
        exact absurd h (by simp)
    | DateRound.Floor =>
      dsimp only at h
      match hv : from_ymd_opt y m 1 with
      | some dt =>
        rw [hv] at h
        cases h
        exact ⟨from_ymd_opt_self hv, rfl⟩
      | none =>
        rw [hv] at h
        exact absurd h (by simp)
  | none, _ =>
    rw [hy] at h
    exact absurd h (by simp)
  | some _, none =>
    rw [hy, hm] at h
    exact absurd h (by simp)

theorem handle_year_ok {ys : String} {round : DateRound}
    {t : NaiveDateTime} (h : handle_year ys round = ParseResult.ok t) :
    from_ymd_opt t.date.year t.date.month t.date.day = some t.date
      ∧ t.time = time_by_date_round round := by
  unfold handle_year at h
  match hy : parseI32 ys with
  | some y =>
    rw [hy] at h
    dsimp only at h
    match round with
    | DateRound.Ceil =>
      dsimp only at h
      match hld : last_day_of_month y 12 with
      | Except.ok ld =>
        rw [hld] at h
        dsimp only at h
        match hv : from_ymd_opt y 12 ld.day with
        | some dt =>
          rw [hv] at h
          cases h
          exact ⟨from_ymd_opt_self hv, rfl⟩
        | none =>
          rw [hv] at h
          exact absurd h (by simp)
      | Except.error e =>
        rw [hld] at h
        exact absurd h (by simp)
    | DateRound.Floor =>
      dsimp only at h
      match hv : from_ymd_opt y 1 1 with
      | some dt =>
        rw [hv] at h
        cases h
        exact ⟨from_ymd_opt_self hv, rfl⟩
      | none =>
        rw [hv] at h
        exact absurd h (by simp)
  | none =>
    rw [hy] at h
    exact absurd h (by simp)

theorem parse_date_str_ok_inv {s : String} {round : DateRound}
    {t : NaiveDateTime} (h : parse_date_str s round = ParseResult.ok t) :
    from_ymd_opt t.date.year t.date.month t.date.day = some t.date
      ∧ t.time = time_by_date_round round := by
  unfold parse_date_str at h
  match hsp : splitSlash s with
  | [] =>
    rw [hsp] at h
    exact absurd h (by simp)
  | [a] =>
    rw [hsp] at h
    exact handle_year_ok h
  | [a, b] =>
    rw [hsp] at h
    exact handle_month_year_ok h
  | [a, b, c] =>
    rw [hsp] at h
    exact handle_full_date_ok h
  | a :: b :: c :: d :: rest =>
    rw [hsp] at h
    exact absurd h (by simp)

/-! ### The claims -/

/-- C1: the claim that `parse_date_str` never panics fails on the code.
For the year-only input "262143" — the maximum chrono-representable year —
under `Ceil`, `handle_year` computes the day as
`last_day_of_month(year, 12).unwrap().day()`; the calendar utility fails
there (the first day of the next month is out of range), and the `unwrap`
aborts instead of surfacing the error value. -/
theorem parse_date_str_panic_on_max_year_ceil :
    parse_date_str "262143" DateRound.Ceil = ParseResult.panic := by
  decide

/-- C2: for 2-token inputs the code's integer-parse error attribution is
the opposite of the claim: `handle_month_year` matches on the tuple
`(year, month)`, so when only the month token is malformed the error
carries the year token's text, and when only the year token is malformed
it carries the month token's text. -/
theorem month_year_error_attribution_swapped :
    parse_date_str "a/2024" DateRound.Floor
      = ParseResult.err (ParseDateStrError.DatePart "2024")
    ∧ parse_date_str "2/b" DateRound.Floor
      = ParseResult.err (ParseDateStrError.DatePart "2")
    ∧ parse_date_str "a/2024" DateRound.Ceil
      = ParseResult.err (ParseDateStrError.DatePart "2024")
    ∧ parse_date_str "2/b" DateRound.Ceil
      = ParseResult.err (ParseDateStrError.DatePart "2") := by
  refine ⟨?_, ?_, ?_, ?_⟩ <;> decide

/-- C3 counterexample: the 3-token input "-1/2/2024" with a negative day
is NOT put in the `InvalidDate` bucket: the day token "-1" fails `u32`
parsing, so the parser returns `InvalidComponent` (`DatePart`) carrying
"-1", refuting the claim that it falls in the same bucket as month 13. -/
theorem negative_day_is_invalid_component :
    parse_date_str "-1/2/2024" DateRound.Floor
      = ParseResult.err (ParseDateStrError.DatePart "-1") := by
  decide

/-- C3 amended: a numerically out-of-range month such as 13 does land in
the `InvalidDate` bucket exactly like a structurally impossible date, but
a negative day token fails unsigned-integer parsing first and is reported
as `InvalidComponent` carrying the raw day token, under either policy. -/
theorem out_of_range_month_and_negative_day (round : DateRound) :
    parse_date_str "1/13/2024" round
      = ParseResult.err (ParseDateStrError.Date "1/13/2024")
    ∧ parse_date_str "-1/2/2024" round
      = ParseResult.err (ParseDateStrError.DatePart "-1") := by
  cases round
  · exact ⟨by decide, by decide⟩
  · exact ⟨by decide, by decide⟩

/-- C4: for every token that parses as an `i32` denoting a representable
year, the year-only branch returns Jan 1 at 00:00:00 under `Floor`; under
`Ceil` it returns Dec 31 at 23:59:59 for every such year except the
maximum one, 262143, where the code panics instead of producing
Dec 31, 262143 — the claim's `Ceil` half fails there. -/
theorem year_only_resolution (s : String) (y : Int)
    (hy : parseI32 s = some y) (h3 : -262144 ≤ y) (h4 : y ≤ 262143) :
    parse_date_str s DateRound.Floor
      = ParseResult.ok ⟨⟨y, 1, 1⟩, ⟨0, 0, 0⟩⟩
    ∧ (y ≤ 262142 → parse_date_str s DateRound.Ceil
        = ParseResult.ok ⟨⟨y, 12, 31⟩, ⟨23, 59, 59⟩⟩)
    ∧ (y = 262143 → parse_date_str s DateRound.Ceil = ParseResult.panic) := by
  have hsp : splitSlash s = [s] := splitSlash_single s (parseI32_no_slash hy)
  refine ⟨?_, ?_, ?_⟩
  · rw [parse_dispatch_one _ hsp]
    exact handle_year_floor hy h3 h4
  · intro hlt
    rw [parse_dispatch_one _ hsp]
    exact handle_year_ceil hy h3 hlt
  · intro hmax
    subst hmax
    rw [parse_dispatch_one _ hsp]
    exact handle_year_ceil_max hy

/-- C4 witness: the year-only resolution at the concrete year 2024. -/
theorem year_only_resolution_witness :
    parse_date_str "2024" DateRound.Floor
      = ParseResult.ok ⟨⟨2024, 1, 1⟩, ⟨0, 0, 0⟩⟩
    ∧ ((2024 : Int) ≤ 262142 → parse_date_str "2024" DateRound.Ceil
        = ParseResult.ok ⟨⟨2024, 12, 31⟩, ⟨23, 59, 59⟩⟩)
    ∧ ((2024 : Int) = 262143 → parse_date_str "2024" DateRound.Ceil
        = ParseResult.panic) :=
  year_only_resolution "2024" 2024 (by decide) (by decide) (by decide)

/-- C5 counterexample: at the maximum representable year the `Ceil`
month/year resolution does not produce the last day of the month — the
calendar utility fails for December 262143 and `handle_month_year`
surfaces its error instead. -/
theorem month_year_ceil_fails_at_max_year :
    parse_date_str "12/262143" DateRound.Ceil
      ≠ ParseResult.ok ⟨⟨262143, 12, 31⟩, ⟨23, 59, 59⟩⟩ := by
  decide

/-- C5 amended: for every month token parsing to `m ∈ 1..=12` and year
token parsing to a representable year `y`, `"M/Y"` resolves under `Floor`
to day 1 at 00:00:00, and under `Ceil` to the last day of the month (as
computed by `last_day_of_month`) at 23:59:59 — except for the single pair
(12, 262143) where the calendar utility fails under `Ceil`. -/
theorem month_year_resolution (ms ys : String) (m : Nat) (y : Int)
    (hm : parseU32 ms = some m) (hy : parseI32 ys = some y)
    (h1 : 1 ≤ m) (h2 : m ≤ 12) (h3 : -262144 ≤ y) (h4 : y ≤ 262143) :
    parse_date_str (ms ++ "/" ++ ys) DateRound.Floor
      = ParseResult.ok ⟨⟨y, m, 1⟩, ⟨0, 0, 0⟩⟩
    ∧ (¬(m = 12 ∧ y = 262143) →
        parse_date_str (ms ++ "/" ++ ys) DateRound.Ceil
          = ParseResult.ok ⟨⟨y, m, daysInMonth y m⟩, ⟨23, 59, 59⟩⟩)
    ∧ (¬(m = 12 ∧ y = 262143) →
        last_day_of_month y m = Except.ok ⟨y, m, daysInMonth y m⟩) := by
  have hsp : splitSlash (ms ++ "/" ++ ys) = [ms, ys] :=
    splitSlash_pair ms ys (parseU32_no_slash hm) (parseI32_no_slash hy)
  refine ⟨?_, ?_, ?_⟩
  · rw [parse_dispatch_two _ hsp]
    exact handle_month_year_floor hm hy h1 h2 h3 h4
  · intro h5
    rw [parse_dispatch_two _ hsp]
    exact handle_month_year_ceil hm hy h1 h2 h3 h4 h5
  · intro h5
    exact last_day_of_month_eq h1 h2 h3 h4 h5

/-- C5 witness: the month/year resolution at February 2024, a leap
February (so the `Ceil` day is `daysInMonth 2024 2 = 29`). -/
theorem month_year_resolution_witness :
    parse_date_str ("2" ++ "/" ++ "2024") DateRound.Floor
      = ParseResult.ok ⟨⟨2024, 2, 1⟩, ⟨0, 0, 0⟩⟩
    ∧ (¬(2 = 12 ∧ (2024 : Int) = 262143) →
        parse_date_str ("2" ++ "/" ++ "2024") DateRound.Ceil
          = ParseResult.ok ⟨⟨2024, 2, daysInMonth 2024 2⟩, ⟨23, 59, 59⟩⟩)
    ∧ (¬(2 = 12 ∧ (2024 : Int) = 262143) →
        last_day_of_month 2024 2 = Except.ok ⟨2024, 2, daysInMonth 2024 2⟩) :=
  month_year_resolution "2" "2024" 2 2024 (by decide) (by decide)
    (by decide) (by decide) (by decide) (by decide)

/-- C6: a 3-token input whose components form a real calendar date parses
to exactly that date, at 00:00:00 under `Floor` and 23:59:59 under `Ceil`;
the rounding policy never alters the day. -/
theorem full_date_resolution (ds ms ys : String) (d m : Nat) (y : Int)
    (dt : NaiveDate)
    (hd : parseU32 ds = some d) (hm : parseU32 ms = some m)
    (hy : parseI32 ys = some y) (hv : from_ymd_opt y m d = some dt) :
    parse_date_str (ds ++ "/" ++ ms ++ "/" ++ ys) DateRound.Floor
      = ParseResult.ok ⟨dt, ⟨0, 0, 0⟩⟩
    ∧ parse_date_str (ds ++ "/" ++ ms ++ "/" ++ ys) DateRound.Ceil
      = ParseResult.ok ⟨dt, ⟨23, 59, 59⟩⟩ := by
  have hsp : splitSlash (ds ++ "/" ++ ms ++ "/" ++ ys) = [ds, ms, ys] :=
    splitSlash_triple ds ms ys (parseU32_no_slash hd) (parseU32_no_slash hm)
      (parseI32_no_slash hy)
  constructor
  · rw [parse_dispatch_three _ hsp]
    exact handle_full_date_valid DateRound.Floor hd hm hy hv
  · rw [parse_dispatch_three _ hsp]
    exact handle_full_date_valid DateRound.Ceil hd hm hy hv

/-- C6 witness: the full-date resolution at 3 November 1997. -/
theorem full_date_resolution_witness :
    parse_date_str ("3" ++ "/" ++ "11" ++ "/" ++ "1997") DateRound.Floor
      = ParseResult.ok ⟨⟨1997, 11, 3⟩, ⟨0, 0, 0⟩⟩
    ∧ parse_date_str ("3" ++ "/" ++ "11" ++ "/" ++ "1997") DateRound.Ceil
      = ParseResult.ok ⟨⟨1997, 11, 3⟩, ⟨23, 59, 59⟩⟩ :=
  full_date_resolution "3" "11" "1997" 3 11 1997 ⟨1997, 11, 3⟩
    (by decide) (by decide) (by decide) (by decide)

/-- C7 counterexample: "1/1/2147483648" has three tokens that all parse
as unsigned 32-bit integers, and does not form a valid calendar date, yet
the parser reports `InvalidComponent` ("2147483648" fails the *signed*
32-bit parse used for the year) rather than `InvalidDate`. -/
theorem unsigned_year_token_invalid_component :
    parseU32 "2147483648" = some 2147483648
    ∧ parse_date_str "1/1/2147483648" DateRound.Floor
      = ParseResult.err (ParseDateStrError.DatePart "2147483648") := by
  constructor
  · decide
  · decide

/-- C7 amended: for every 3-token input whose day and month tokens parse
as unsigned 32-bit integers and whose year token parses as a signed
32-bit integer, if the triple does not form a valid calendar date the
parser returns `InvalidDate` carrying the day/month/year tokens
reassembled with slashes, under either policy. -/
theorem full_date_invalid_bucket (ds ms ys : String) (d m : Nat) (y : Int)
    (round : DateRound)
    (hd : parseU32 ds = some d) (hm : parseU32 ms = some m)
    (hy : parseI32 ys = some y) (hv : from_ymd_opt y m d = none) :
    parse_date_str (ds ++ "/" ++ ms ++ "/" ++ ys) round
      = ParseResult.err
          (ParseDateStrError.Date (ds ++ "/" ++ ms ++ "/" ++ ys)) := by
  have hsp : splitSlash (ds ++ "/" ++ ms ++ "/" ++ ys) = [ds, ms, ys] :=
    splitSlash_triple ds ms ys (parseU32_no_slash hd) (parseU32_no_slash hm)
      (parseI32_no_slash hy)
  rw [parse_dispatch_three _ hsp]
  exact handle_full_date_invalid round hd hm hy hv

/-- C7 witness: the leap-year violation "30/2/2024" is rejected with
`InvalidDate` carrying the reassembled tokens. -/
theorem full_date_invalid_bucket_witness :
    parse_date_str ("30" ++ "/" ++ "2" ++ "/" ++ "2024") DateRound.Floor
      = ParseResult.err
          (ParseDateStrError.Date ("30" ++ "/" ++ "2" ++ "/" ++ "2024")) :=
  full_date_invalid_bucket "30" "2" "2024" 30 2 2024 DateRound.Floor
    (by decide) (by decide) (by decide) (by decide)

/-- C8: an input splitting into an unsupported token count (0, or 4 and
more) fails with `InvalidDate` carrying the original string verbatim,
under either policy. -/
theorem wrong_arity_invalid_date (s : String) (round : DateRound)
    (h : (splitSlash s).length = 0 ∨ 4 ≤ (splitSlash s).length) :
    parse_date_str s round = ParseResult.err (ParseDateStrError.Date s) := by
  unfold parse_date_str
  rcases hsp : splitSlash s with _ | ⟨a, _ | ⟨b, _ | ⟨c, _ | ⟨d, rest⟩⟩⟩⟩
  · rfl
  · rw [hsp] at h
    simp at h
  · rw [hsp] at h
    simp at h
  · rw [hsp] at h
    simp at h
  · rfl

/-- C8 witness: "1/2/3/4" splits into four tokens and is rejected with
`InvalidDate` carrying the original string. -/
theorem wrong_arity_invalid_date_witness :
    ((splitSlash "1/2/3/4").length = 0 ∨ 4 ≤ (splitSlash "1/2/3/4").length)
    ∧ parse_date_str "1/2/3/4" DateRound.Floor
      = ParseResult.err (ParseDateStrError.Date "1/2/3/4") :=
  ⟨Or.inr (by decide),
    wrong_arity_invalid_date "1/2/3/4" DateRound.Floor (Or.inr (by decide))⟩

/-- C9: whenever a parse succeeds, formatting the date part of the result
back into "D/M/Y" form and re-parsing with the same policy yields the
identical timestamp. -/
theorem parse_format_roundtrip (s : String) (p : DateRound)
    (t : NaiveDateTime) (h : parse_date_str s p = ParseResult.ok t) :
    parse_date_str (formatDMY t.date) p = ParseResult.ok t := by
  obtain ⟨hv, ht⟩ := parse_date_str_ok_inv h
  obtain ⟨_, h1, h2, h3, h4, h5, h6⟩ := from_ymd_opt_eq_some hv
  have hle : t.date.day ≤ 31 := le_trans h6 (daysInMonth_le h3 h4)
  have hD : parseU32 (natToString t.date.day) = some t.date.day :=
    parseU32_natToString (by omega)
  have hM : parseU32 (natToString t.date.month) = some t.date.month :=
    parseU32_natToString (by omega)
  have hY : parseI32 (intToString t.date.year) = some t.date.year :=
    parseI32_intToString (by omega)
  have hsp : splitSlash (formatDMY t.date)
      = [natToString t.date.day, natToString t.date.month,
          intToString t.date.year] := by
    unfold formatDMY
    exact splitSlash_triple _ _ _ (natToString_no_slash _)
      (natToString_no_slash _) (intToString_no_slash _)
  rw [parse_dispatch_three _ hsp, handle_full_date_valid p hD hM hY hv, ← ht]

/-- C9 witness: the round trip at the concrete parse of "3/11/1997" under
`Floor`. -/
theorem parse_format_roundtrip_witness :
    parse_date_str "3/11/1997" DateRound.Floor
      = ParseResult.ok ⟨⟨1997, 11, 3⟩, ⟨0, 0, 0⟩⟩
    ∧ parse_date_str (formatDMY (⟨1997, 11, 3⟩ : NaiveDate)) DateRound.Floor
      = ParseResult.ok ⟨⟨1997, 11, 3⟩, ⟨0, 0, 0⟩⟩ :=
  ⟨by decide,
    parse_format_roundtrip "3/11/1997" DateRound.Floor
      ⟨⟨1997, 11, 3⟩, ⟨0, 0, 0⟩⟩ (by decide)⟩

/-- C10: splitting any string on '/' yields at least one token, so the
zero-token arity branch is unreachable; in particular the empty input ""
goes to the year-only branch and yields `InvalidComponent` carrying the
empty token text, under either policy. -/
theorem split_never_empty_and_empty_input :
    (∀ s : String, 1 ≤ (splitSlash s).length)
    ∧ (∀ round : DateRound, parse_date_str "" round
        = ParseResult.err (ParseDateStrError.DatePart "")) := by
  constructor
  · intro s
    have h := splitSlashAux_ne_nil s.data
    simp only [splitSlash, List.length_map]
    exact Nat.one_le_iff_ne_zero.mpr fun hl => h (List.length_eq_zero.mp hl)
  · intro round
    cases round
    · decide
    · decide

end OnboardingBot
